import Mathlib

/-!
Verification of the buffering TLS echo server (`ex2/echo.c`).

The development shallowly embeds the per-connection circular buffer
(`client_put`, `client_get`, `client_consume`), the per-connection state
machine (`handle_client`, `closeconn`) and the dispatcher's accept /
throttle step from `main`.  Machine pointers into `client->buf` are
modelled as natural-number offsets from the buffer origin; the pointer
increments, wrap checks and comparisons of the C code are carried over
literally.  Byte values are modelled as `Nat`.  An out-of-range read of
the 4096-byte array (which is undefined behaviour in the C program) is
modelled by `List.getD` returning `0`.
-/

set_option maxRecDepth 20000

/-- Per-connection circular buffer: offsets of `readptr`, `writeptr`,
`nextptr` from `client->buf`, plus the byte array itself. -/
structure ClientBuf where
  readp : Nat
  writep : Nat
  nextp : Nat
  buf : List Nat
deriving DecidableEq, Repr

/-- Loop body of `client_consume`: `while (n < len) { if (readptr == nextptr)
break; readptr++; n++; }`.  Note the source increments `readptr` without any
wraparound check. -/
def consumeLoop : Nat → Nat → ClientBuf → ClientBuf × Nat
  | 0, n, c => (c, n)
  | len + 1, n, c =>
    if c.readp = c.nextp then (c, n)
    else consumeLoop len (n + 1) { c with readp := c.readp + 1 }

/-- `client_consume(client, len)`: advances the read cursor, returns the
count advanced. -/
def client_consume (c : ClientBuf) (len : Nat) : ClientBuf × Nat :=
  consumeLoop len 0 c

/-- Loop body of `client_get`: the local `nextptr` starts at `readptr`,
each copied byte advances it with wraparound at 4096 and stores it back
into `client->nextptr`. -/
def getLoop : Nat → Nat → List Nat → Nat → ClientBuf → List Nat × ClientBuf × Nat
  | 0, _, acc, n, c => (acc, c, n)
  | fuel + 1, p, acc, n, c =>
    if p = c.writep then (acc, c, n)
    else
      getLoop fuel (if p + 1 ≥ 4096 then 0 else p + 1)
        (acc ++ [c.buf.getD p 0]) (n + 1)
        { c with nextp := if p + 1 ≥ 4096 then 0 else p + 1 }

/-- `client_get(client, outbuf, outlen)`: copies up to `outlen` bytes
starting at `readptr`, returns the bytes copied, the updated buffer state
and the count. -/
def client_get (c : ClientBuf) (outlen : Nat) : List Nat × ClientBuf × Nat :=
  getLoop outlen c.readp [] 0 c

/-- Loop body of `client_put`: `prevptr = nextptr++` with wraparound at
4096, breaking before the write cursor would land on the read cursor. -/
def putLoop : List Nat → Nat → ClientBuf → ClientBuf × Nat
  | [], n, c => (c, n)
  | b :: rest, n, c =>
    if (if c.writep + 1 ≥ 4096 then 0 else c.writep + 1) = c.readp then (c, n)
    else putLoop rest (n + 1)
      { c with buf := c.buf.set c.writep b,
               writep := if c.writep + 1 ≥ 4096 then 0 else c.writep + 1 }

/-- `client_put(client, inbuf, inlen)`: copies up to `inlen` bytes at the
write cursor, returns the updated buffer state and the count copied. -/
def client_put (c : ClientBuf) (input : List Nat) : ClientBuf × Nat :=
  putLoop input 0 c

/-- `client_init`: all three cursors at the buffer origin. -/
def client_init_buf : ClientBuf :=
  ⟨0, 0, 0, List.replicate 4096 0⟩

/-- Number of unread bytes logically held by the buffer (distance from the
read cursor to the write cursor, modulo the capacity). -/
def usedOf (c : ClientBuf) : Nat :=
  (c.writep + 4096 - c.readp) % 4096

/-- Number of bytes `client_consume` advances: up to the peek cursor when the
read cursor is at or before it, otherwise the full requested length (the read
cursor then marches past the end of the array without ever wrapping). -/
def consumeAmt (c : ClientBuf) (len : Nat) : Nat :=
  if c.readp ≤ c.nextp then min len (c.nextp - c.readp) else len

/-- Number of bytes `client_get` copies from position `p` with `fuel`
remaining, for in-range positions. -/
def getAmt (fuel p : Nat) (c : ClientBuf) : Nat :=
  min fuel ((c.writep + 4096 - p) % 4096)

/-- Number of bytes `client_put` accepts: bounded by the free space, which is
one less than the capacity minus the bytes currently buffered. -/
def putAmt (input : List Nat) (c : ClientBuf) : Nat :=
  min input.length (4095 - usedOf c)

lemma getD_set_ne (l : List Nat) (i j b d : Nat) (h : i ≠ j) :
    (l.set i b).getD j d = l.getD j d := by
  simp [List.getD_eq_getElem?_getD, List.getElem?_set_ne h]

/-- Characterization of `consumeLoop`: it advances the read cursor by
`consumeAmt` and counts the advance, leaving everything else alone. -/
lemma consumeLoop_spec (len : Nat) :
    ∀ (n : Nat) (c : ClientBuf),
      (consumeLoop len n c).1.readp = c.readp + consumeAmt c len ∧
      (consumeLoop len n c).1.writep = c.writep ∧
      (consumeLoop len n c).1.nextp = c.nextp ∧
      (consumeLoop len n c).1.buf = c.buf ∧
      (consumeLoop len n c).2 = n + consumeAmt c len := by
  induction len with
  | zero =>
    intro n c
    have h0 : consumeAmt c 0 = 0 := by
      rw [consumeAmt]; split <;> simp
    simp [consumeLoop, h0]
  | succ len ih =>
    intro n c
    by_cases h : c.readp = c.nextp
    · have hamt : consumeAmt c (len + 1) = 0 := by
        simp only [consumeAmt]; split_ifs <;> omega
      simp [consumeLoop, h, hamt]
    · have hrec := ih (n + 1) { c with readp := c.readp + 1 }
      simp only at hrec
      have hamt : consumeAmt { c with readp := c.readp + 1 } len + 1
          = consumeAmt c (len + 1) := by
        simp only [consumeAmt]
        split_ifs <;> omega
      simp only [consumeLoop, if_neg h]
      refine ⟨?_, hrec.2.1, hrec.2.2.1, hrec.2.2.2.1, ?_⟩
      · rw [hrec.1]; omega
      · rw [hrec.2.2.2.2]; omega

/-- Characterization of `getLoop` for in-range start position and write
cursor: it copies `getAmt` bytes, stores the wrapped end position into the
peek cursor (when at least one byte was copied) and counts the copies. -/
lemma getLoop_spec (fuel : Nat) :
    ∀ (p : Nat) (acc : List Nat) (n : Nat) (c : ClientBuf),
      p < 4096 → c.writep < 4096 →
      (getLoop fuel p acc n c).2.1.readp = c.readp ∧
      (getLoop fuel p acc n c).2.1.writep = c.writep ∧
      (getLoop fuel p acc n c).2.1.buf = c.buf ∧
      (getLoop fuel p acc n c).2.1.nextp =
        (if getAmt fuel p c = 0 then c.nextp else (p + getAmt fuel p c) % 4096) ∧
      (getLoop fuel p acc n c).2.2 = n + getAmt fuel p c := by
  induction fuel with
  | zero =>
    intro p acc n c hp hw
    have h0 : getAmt 0 p c = 0 := by simp [getAmt]
    simp [getLoop, h0]
  | succ fuel ih =>
    intro p acc n c hp hw
    by_cases h : p = c.writep
    · have hamt : getAmt (fuel + 1) p c = 0 := by
        simp only [getAmt, h]
        omega
      subst h
      simp [getLoop, hamt]
    · have hamt : 0 < getAmt (fuel + 1) p c := by
        simp only [getAmt]
        omega
      have hp' : (if p + 1 ≥ 4096 then 0 else p + 1) = (p + 1) % 4096 := by
        split <;> omega
      have hrec := ih ((p + 1) % 4096) (acc ++ [c.buf.getD p 0]) (n + 1)
        { c with nextp := (p + 1) % 4096 } (by omega) hw
      simp only at hrec
      have hamt' : getAmt fuel ((p + 1) % 4096) { c with nextp := (p + 1) % 4096 } + 1
          = getAmt (fuel + 1) p c := by
        simp only [getAmt]
        omega
      simp only [getLoop, if_neg h, hp']
      refine ⟨hrec.1, hrec.2.1, hrec.2.2.1, ?_, ?_⟩
      · rw [hrec.2.2.2.1, if_neg (by omega : ¬ getAmt (fuel + 1) p c = 0)]
        by_cases hz : getAmt fuel ((p + 1) % 4096) { c with nextp := (p + 1) % 4096 } = 0
        · rw [if_pos hz]
          omega
        · rw [if_neg hz]
          omega
      · rw [hrec.2.2.2.2]
        omega

/-- Characterization of `putLoop` for in-range cursors: it accepts `putAmt`
bytes, advances the write cursor modulo the capacity, preserves the other
cursors and the bytes of the logically occupied region, and does nothing at
all when the buffer is full. -/
lemma putLoop_spec :
    ∀ (input : List Nat) (n : Nat) (c : ClientBuf),
      c.readp < 4096 → c.writep < 4096 →
      (putLoop input n c).2 = n + putAmt input c ∧
      (putLoop input n c).1.readp = c.readp ∧
      (putLoop input n c).1.nextp = c.nextp ∧
      (putLoop input n c).1.writep = (c.writep + putAmt input c) % 4096 ∧
      (putLoop input n c).1.buf.length = c.buf.length ∧
      (∀ i < usedOf c,
        (putLoop input n c).1.buf.getD ((c.readp + i) % 4096) 0
          = c.buf.getD ((c.readp + i) % 4096) 0) ∧
      (putAmt input c = 0 → (putLoop input n c).1 = c) := by
  intro input
  induction input with
  | nil =>
    intro n c hr hw
    have h0 : putAmt [] c = 0 := by simp [putAmt]
    simp [putLoop, h0, Nat.mod_eq_of_lt hw]
  | cons b rest ih =>
    intro n c hr hw
    have hnext : (if c.writep + 1 ≥ 4096 then 0 else c.writep + 1) = (c.writep + 1) % 4096 := by
      split <;> omega
    have hused : usedOf c < 4096 := by
      simp only [usedOf]; omega
    simp only [putLoop, hnext]
    by_cases h : (c.writep + 1) % 4096 = c.readp
    · have hfull : usedOf c = 4095 := by
        simp only [usedOf]
        omega
      have hamt : putAmt (b :: rest) c = 0 := by
        simp [putAmt, hfull]
      rw [if_pos h, hamt]
      simp [Nat.mod_eq_of_lt hw]
    · have hnotfull : usedOf c < 4095 := by
        simp only [usedOf] at *
        omega
      have husedc' : usedOf ({ c with buf := c.buf.set c.writep b, writep := (c.writep + 1) % 4096 }) = usedOf c + 1 := by
        simp only [usedOf]
        omega
      have hamt : putAmt (b :: rest) c = putAmt rest ({ c with buf := c.buf.set c.writep b, writep := (c.writep + 1) % 4096 }) + 1 := by
        simp only [putAmt, husedc', List.length_cons]
        omega
      have hrec := ih (n + 1) ({ c with buf := c.buf.set c.writep b, writep := (c.writep + 1) % 4096 }) (by simpa using hr) (by simp; omega)
      simp only at hrec
      obtain ⟨e1, e2, e3, e4, e5, e6, _⟩ := hrec
      rw [if_neg h]
      refine ⟨by omega, e2, e3, ?_, ?_, ?_, ?_⟩
      · rw [e4]
        omega
      · rw [e5]
        simp
      · intro i hi
        have hi' : i < usedOf ({ c with buf := c.buf.set c.writep b, writep := (c.writep + 1) % 4096 }) := by omega
        have heq := e6 i hi'
        rw [heq]
        have hwpos : c.writep = (c.readp + usedOf c) % 4096 := by
          simp only [usedOf]
          omega
        have hne : c.writep ≠ (c.readp + i) % 4096 := by
          rw [hwpos]
          omega
        exact getD_set_ne _ _ _ _ _ hne
      · intro hz
        omega

/-- Wrapper-level characterization of `client_put`. -/
lemma client_put_spec (c : ClientBuf) (input : List Nat)
    (hr : c.readp < 4096) (hw : c.writep < 4096) :
    (client_put c input).2 = putAmt input c ∧
    (client_put c input).1.readp = c.readp ∧
    (client_put c input).1.nextp = c.nextp ∧
    (client_put c input).1.writep = (c.writep + putAmt input c) % 4096 ∧
    (client_put c input).1.buf.length = c.buf.length ∧
    (∀ i < usedOf c,
      (client_put c input).1.buf.getD ((c.readp + i) % 4096) 0
        = c.buf.getD ((c.readp + i) % 4096) 0) ∧
    (putAmt input c = 0 → (client_put c input).1 = c) := by
  have h := putLoop_spec input 0 c hr hw
  simpa [client_put] using h

/-- Wrapper-level characterization of `client_get`: the copy starts at the
read cursor (not at the saved peek cursor) and, when at least one byte is
copied, leaves the peek cursor just past the last byte copied. -/
lemma client_get_spec (c : ClientBuf) (outlen : Nat)
    (hr : c.readp < 4096) (hw : c.writep < 4096) :
    (client_get c outlen).2.1.readp = c.readp ∧
    (client_get c outlen).2.1.writep = c.writep ∧
    (client_get c outlen).2.1.buf = c.buf ∧
    (client_get c outlen).2.1.nextp =
      (if min outlen (usedOf c) = 0 then c.nextp
       else (c.readp + min outlen (usedOf c)) % 4096) ∧
    (client_get c outlen).2.2 = min outlen (usedOf c) := by
  have h := getLoop_spec outlen c.readp [] 0 c hr hw
  have hamt : getAmt outlen c.readp c = min outlen (usedOf c) := rfl
  rw [hamt] at h
  simpa [client_get] using h

/-- Wrapper-level characterization of `client_consume`.  It needs no bound
on the cursors: when the read cursor lies beyond the peek cursor the loop
advances it by the full requested length without ever wrapping. -/
lemma client_consume_spec (c : ClientBuf) (len : Nat) :
    (client_consume c len).1.readp = c.readp + consumeAmt c len ∧
    (client_consume c len).1.writep = c.writep ∧
    (client_consume c len).1.nextp = c.nextp ∧
    (client_consume c len).1.buf = c.buf ∧
    (client_consume c len).2 = consumeAmt c len := by
  have h := consumeLoop_spec len 0 c
  simpa [client_consume] using h

/-! ### The failing run of the buffer operations

From the initial state: put 4090 bytes, peek and consume all of them, then
put 10 bytes (which wrap around the end of the array), peek them and
consume them.  The final consume crosses the end of the 4096-byte array
and, because `client_consume` never wraps the read cursor, leaves it at
offset 4100.  A further peek then returns 5 bytes (one read out of
bounds, four stale already-consumed bytes) and a further consume succeeds
for all 5 of them, making the consumed total exceed the put total. -/

def bugData1 : List Nat := List.replicate 4090 1

def bugData2 : List Nat := List.replicate 10 2

def bugPut1 : ClientBuf × Nat := client_put client_init_buf bugData1

def bugS1 : ClientBuf := bugPut1.1

def bugGet1 : List Nat × ClientBuf × Nat := client_get bugS1 4090

def bugS2 : ClientBuf := bugGet1.2.1

def bugCons1 : ClientBuf × Nat := client_consume bugS2 4090

def bugS3 : ClientBuf := bugCons1.1

def bugPut2 : ClientBuf × Nat := client_put bugS3 bugData2

def bugS4 : ClientBuf := bugPut2.1

def bugGet2 : List Nat × ClientBuf × Nat := client_get bugS4 10

def bugS5 : ClientBuf := bugGet2.2.1

def bugCons2 : ClientBuf × Nat := client_consume bugS5 10

def bugS6 : ClientBuf := bugCons2.1

def bugGet3 : List Nat × ClientBuf × Nat := client_get bugS6 10

def bugS7 : ClientBuf := bugGet3.2.1

def bugCons3 : ClientBuf × Nat := client_consume bugS7 5

/-- Total number of bytes accepted by the two `client_put` calls of the
failing run. -/
def bugPutTotal : Nat := bugPut1.2 + bugPut2.2

/-- Total number of bytes reported consumed by the three `client_consume`
calls of the failing run. -/
def bugConsumeTotal : Nat := bugCons1.2 + bugCons2.2 + bugCons3.2

/-- One step of `getLoop` from a start position at or beyond 4096: the copy
happens (with an out-of-range read, modelled as the `getD` default), the
local cursor wraps to 0 and is stored into the peek cursor. -/
lemma getLoop_wrap_step (fuel p : Nat) (acc : List Nat) (n : Nat) (c : ClientBuf)
    (hp : 4096 ≤ p) (hw : c.writep < 4096) :
    getLoop (fuel + 1) p acc n c
      = getLoop fuel 0 (acc ++ [c.buf.getD p 0]) (n + 1) { c with nextp := 0 } := by
  have hne : ¬ p = c.writep := by omega
  have hcond : p + 1 ≥ 4096 := by omega
  simp only [getLoop, if_neg hne, if_pos hcond]

/-- Structure extensionality for the buffer record. -/
lemma clientBuf_ext (a b : ClientBuf) (h1 : a.readp = b.readp) (h2 : a.writep = b.writep)
    (h3 : a.nextp = b.nextp) (h4 : a.buf = b.buf) : a = b := by
  cases a
  cases b
  simp_all

/-- Build a pair equation from componentwise equations. -/
lemma pair_state_eq {X : ClientBuf × Nat} {b : ClientBuf} {n : Nat}
    (h1 : X.1 = b) (h2 : X.2 = n) : X = (b, n) := by
  rw [← h1, ← h2]

/-- Build a triple equation from componentwise equations. -/
lemma triple_state_eq {X : List Nat × ClientBuf × Nat} {o : List Nat} {b : ClientBuf} {n : Nat}
    (h1 : X.1 = o) (h2 : X.2.1 = b) (h3 : X.2.2 = n) : X = (o, b, n) := by
  rw [← h1, ← h2, ← h3]

/-- `client_consume` as a whole-result equation. -/
lemma client_consume_eq (c : ClientBuf) (len : Nat) :
    client_consume c len
      = ({ c with readp := c.readp + consumeAmt c len }, consumeAmt c len) := by
  have h := client_consume_spec c len
  exact pair_state_eq (clientBuf_ext _ _ h.1 h.2.1 h.2.2.1 h.2.2.2.1) h.2.2.2.2

/-- `client_put` as a whole-result equation, the new buffer contents hidden
behind an existential. -/
lemma client_put_ex (c : ClientBuf) (input : List Nat)
    (hr : c.readp < 4096) (hw : c.writep < 4096) :
    ∃ B : List Nat,
      client_put c input
        = ({ c with buf := B, writep := (c.writep + putAmt input c) % 4096 }, putAmt input c) ∧
      B.length = c.buf.length ∧
      (∀ i < usedOf c,
        B.getD ((c.readp + i) % 4096) 0 = c.buf.getD ((c.readp + i) % 4096) 0) := by
  have h := client_put_spec c input hr hw
  refine ⟨(client_put c input).1.buf,
    pair_state_eq (clientBuf_ext _ _ h.2.1 h.2.2.2.1 h.2.2.1 rfl) h.1,
    h.2.2.2.2.1, h.2.2.2.2.2.1⟩

/-- `getLoop` as a whole-result equation, the output hidden behind an
existential. -/
lemma getLoop_ex (fuel p : Nat) (acc : List Nat) (n : Nat) (c : ClientBuf)
    (hp : p < 4096) (hw : c.writep < 4096) :
    ∃ out : List Nat,
      getLoop fuel p acc n c
        = (out,
           (if getAmt fuel p c = 0 then c
            else { c with nextp := (p + getAmt fuel p c) % 4096 }),
           n + getAmt fuel p c) := by
  have h := getLoop_spec fuel p acc n c hp hw
  refine ⟨(getLoop fuel p acc n c).1, triple_state_eq rfl ?_ h.2.2.2.2⟩
  by_cases hz : getAmt fuel p c = 0
  · rw [if_pos hz]
    exact clientBuf_ext _ _ h.1 h.2.1 (by rw [h.2.2.2.1, if_pos hz]) h.2.2.1
  · rw [if_neg hz]
    exact clientBuf_ext _ _ h.1 h.2.1 (by rw [h.2.2.2.1, if_neg hz]) h.2.2.1

/-- `client_get` as a whole-result equation, the output hidden behind an
existential. -/
lemma client_get_ex (c : ClientBuf) (outlen : Nat)
    (hr : c.readp < 4096) (hw : c.writep < 4096) :
    ∃ out : List Nat,
      client_get c outlen
        = (out,
           (if min outlen (usedOf c) = 0 then c
            else { c with nextp := (c.readp + min outlen (usedOf c)) % 4096 }),
           min outlen (usedOf c)) := by
  have h := client_get_spec c outlen hr hw
  refine ⟨(client_get c outlen).1, triple_state_eq rfl ?_ h.2.2.2.2⟩
  by_cases hz : min outlen (usedOf c) = 0
  · rw [if_pos hz]
    exact clientBuf_ext _ _ h.1 h.2.1 (by rw [h.2.2.2.1, if_pos hz]) h.2.2.1
  · rw [if_neg hz]
    exact clientBuf_ext _ _ h.1 h.2.1 (by rw [h.2.2.2.1, if_neg hz]) h.2.2.1

set_option maxHeartbeats 1600000 in
/-- Cursor and count facts along the failing run.  Each intermediate state
is reduced to an explicit record whose contents are the existentially
obtained byte lists, so that all later steps are syntactic rewrites. -/
lemma bugRun_facts :
    bugPut1.2 = 4090 ∧ bugCons1.2 = 4090 ∧
    bugPut2.2 = 10 ∧ bugCons2.2 = 10 ∧
    bugS6.readp = 4100 ∧ bugS6.writep = 4 ∧ bugS6.nextp = 4 ∧
    bugGet3.2.2 = 5 ∧ bugCons3.2 = 5 := by
  have hamt1 : putAmt bugData1 client_init_buf = 4090 := by
    norm_num [putAmt, usedOf, client_init_buf, bugData1]
  obtain ⟨B1, hB1, _, _⟩ := client_put_ex client_init_buf bugData1
    (by norm_num [client_init_buf]) (by norm_num [client_init_buf])
  rw [hamt1,
    show (client_init_buf.writep + 4090) % 4096 = 4090 from by norm_num [client_init_buf],
    show ({ client_init_buf with buf := B1, writep := 4090 } : ClientBuf)
      = ⟨0, 4090, 0, B1⟩ from rfl] at hB1
  have hP1 : bugPut1 = (⟨0, 4090, 0, B1⟩, 4090) := by
    rw [bugPut1]
    exact hB1
  have hSS1 : bugS1 = ⟨0, 4090, 0, B1⟩ := by
    rw [bugS1, hP1]
  obtain ⟨out1, hG1⟩ := client_get_ex ⟨0, 4090, 0, B1⟩ 4090 (by norm_num) (by norm_num)
  rw [show min 4090 (usedOf ⟨0, 4090, 0, B1⟩) = 4090 from by norm_num [usedOf],
    if_neg (by norm_num : ¬ (4090 = 0)),
    show (((⟨0, 4090, 0, B1⟩ : ClientBuf)).readp + 4090) % 4096 = 4090 from by norm_num,
    show ({ (⟨0, 4090, 0, B1⟩ : ClientBuf) with nextp := 4090 } : ClientBuf)
      = ⟨0, 4090, 4090, B1⟩ from rfl] at hG1
  have hGG1 : bugGet1 = (out1, ⟨0, 4090, 4090, B1⟩, 4090) := by
    rw [bugGet1, hSS1]
    exact hG1
  have hSS2 : bugS2 = ⟨0, 4090, 4090, B1⟩ := by
    rw [bugS2, hGG1]
  have hC1 := client_consume_eq ⟨0, 4090, 4090, B1⟩ 4090
  rw [show consumeAmt ⟨0, 4090, 4090, B1⟩ 4090 = 4090 from by norm_num [consumeAmt],
    show ({ (⟨0, 4090, 4090, B1⟩ : ClientBuf) with
        readp := (⟨0, 4090, 4090, B1⟩ : ClientBuf).readp + 4090 } : ClientBuf)
      = ⟨4090, 4090, 4090, B1⟩ from rfl] at hC1
  have hCC1 : bugCons1 = (⟨4090, 4090, 4090, B1⟩, 4090) := by
    rw [bugCons1, hSS2]
    exact hC1
  have hSS3 : bugS3 = ⟨4090, 4090, 4090, B1⟩ := by
    rw [bugS3, hCC1]
  have hamt2 : putAmt bugData2 ⟨4090, 4090, 4090, B1⟩ = 10 := by
    norm_num [putAmt, usedOf, bugData2]
  obtain ⟨B2, hB2, _, _⟩ := client_put_ex ⟨4090, 4090, 4090, B1⟩ bugData2
    (by norm_num) (by norm_num)
  rw [hamt2,
    show ((⟨4090, 4090, 4090, B1⟩ : ClientBuf).writep + 10) % 4096 = 4 from by norm_num,
    show ({ (⟨4090, 4090, 4090, B1⟩ : ClientBuf) with buf := B2, writep := 4 } : ClientBuf)
      = ⟨4090, 4, 4090, B2⟩ from rfl] at hB2
  have hPP2 : bugPut2 = (⟨4090, 4, 4090, B2⟩, 10) := by
    rw [bugPut2, hSS3]
    exact hB2
  have hSS4 : bugS4 = ⟨4090, 4, 4090, B2⟩ := by
    rw [bugS4, hPP2]
  obtain ⟨out2, hG2⟩ := client_get_ex ⟨4090, 4, 4090, B2⟩ 10 (by norm_num) (by norm_num)
  rw [show min 10 (usedOf ⟨4090, 4, 4090, B2⟩) = 10 from by norm_num [usedOf],
    if_neg (by norm_num : ¬ (10 = 0)),
    show ((⟨4090, 4, 4090, B2⟩ : ClientBuf).readp + 10) % 4096 = 4 from by norm_num,
    show ({ (⟨4090, 4, 4090, B2⟩ : ClientBuf) with nextp := 4 } : ClientBuf)
      = ⟨4090, 4, 4, B2⟩ from rfl] at hG2
  have hGG2 : bugGet2 = (out2, ⟨4090, 4, 4, B2⟩, 10) := by
    rw [bugGet2, hSS4]
    exact hG2
  have hSS5 : bugS5 = ⟨4090, 4, 4, B2⟩ := by
    rw [bugS5, hGG2]
  have hC2 := client_consume_eq ⟨4090, 4, 4, B2⟩ 10
  rw [show consumeAmt ⟨4090, 4, 4, B2⟩ 10 = 10 from by norm_num [consumeAmt],
    show ({ (⟨4090, 4, 4, B2⟩ : ClientBuf) with
        readp := (⟨4090, 4, 4, B2⟩ : ClientBuf).readp + 10 } : ClientBuf)
      = ⟨4100, 4, 4, B2⟩ from rfl] at hC2
  have hCC2 : bugCons2 = (⟨4100, 4, 4, B2⟩, 10) := by
    rw [bugCons2, hSS5]
    exact hC2
  have hSS6 : bugS6 = ⟨4100, 4, 4, B2⟩ := by
    rw [bugS6, hCC2]
  have hwrap := getLoop_wrap_step 9 4100 [] 0 ⟨4100, 4, 4, B2⟩ (by norm_num) (by norm_num)
  obtain ⟨out3, hG3i⟩ := getLoop_ex 9 0
    ([] ++ [(⟨4100, 4, 4, B2⟩ : ClientBuf).buf.getD 4100 0]) (0 + 1)
    ({ (⟨4100, 4, 4, B2⟩ : ClientBuf) with nextp := 0 }) (by norm_num) (by norm_num)
  rw [show getAmt 9 0 ({ (⟨4100, 4, 4, B2⟩ : ClientBuf) with nextp := 0 }) = 4 from by
      norm_num [getAmt],
    if_neg (by norm_num : ¬ (4 = 0)),
    show (0 + 4) % 4096 = 4 from by norm_num,
    show 0 + 1 + 4 = 5 from by norm_num,
    show ({ ({ (⟨4100, 4, 4, B2⟩ : ClientBuf) with nextp := 0 } : ClientBuf) with
        nextp := 4 } : ClientBuf) = ⟨4100, 4, 4, B2⟩ from rfl] at hG3i
  have hG3 : client_get (⟨4100, 4, 4, B2⟩ : ClientBuf) 10 = (out3, ⟨4100, 4, 4, B2⟩, 5) := by
    show getLoop 10 (⟨4100, 4, 4, B2⟩ : ClientBuf).readp [] 0 ⟨4100, 4, 4, B2⟩ = _
    rw [show (⟨4100, 4, 4, B2⟩ : ClientBuf).readp = 4100 from rfl,
      show (10 : Nat) = 9 + 1 from rfl, hwrap]
    exact hG3i
  have hGG3 : bugGet3 = (out3, ⟨4100, 4, 4, B2⟩, 5) := by
    rw [bugGet3, hSS6]
    exact hG3
  have hSS7 : bugS7 = ⟨4100, 4, 4, B2⟩ := by
    rw [bugS7, hGG3]
  have hC3 := client_consume_eq ⟨4100, 4, 4, B2⟩ 5
  rw [show consumeAmt ⟨4100, 4, 4, B2⟩ 5 = 5 from by norm_num [consumeAmt]] at hC3
  have hCC3 : bugCons3
      = ({ (⟨4100, 4, 4, B2⟩ : ClientBuf) with
          readp := (⟨4100, 4, 4, B2⟩ : ClientBuf).readp + 5 }, 5) := by
    rw [bugCons3, hSS7]
    exact hC3
  refine ⟨?_, ?_, ?_, ?_, ?_, ?_, ?_, ?_, ?_⟩
  · rw [hP1]
  · rw [hCC1]
  · rw [hPP2]
  · rw [hCC2]
  · rw [hSS6]
  · rw [hSS6]
  · rw [hSS6]
  · rw [hGG3]
  · rw [hCC3]

/-! ### Connection state machine (`handle_client`, `closeconn`)

`tls_read` / `tls_write` are the opaque secure-channel primitives; their
results are supplied as oracle values.  `TLS_WANT_POLLIN` / `TLS_WANT_POLLOUT`
are the retry signals, a negative return that is neither of them is a hard
error, and for `tls_read` a return of 0 is end-of-stream (modelled as
`RRes.data []`). -/

/-- Connection state: `STATE_READING` or `STATE_WRITING`. -/
inductive CState where
  | reading
  | writing
deriving DecidableEq, Repr

/-- Result of a `tls_read` call: retry signals, hard error, or `len ≥ 0`
bytes delivered (`[]` is end-of-stream). -/
inductive RRes where
  | wantIn
  | wantOut
  | err
  | data (d : List Nat)
deriving DecidableEq, Repr

/-- Result of a `tls_write` call: retry signals, hard error, or a confirmed
byte count `m ≥ 0`. -/
inductive WRes where
  | wantIn
  | wantOut
  | err
  | ok (m : Nat)
deriving DecidableEq, Repr

/-- The poll event bits this program uses: POLLIN, POLLOUT, POLLHUP,
POLLERR, POLLNVAL. -/
structure Events where
  pollin : Bool
  pollout : Bool
  hup : Bool
  perr : Bool
  pnval : Bool
deriving DecidableEq, Repr

/-- `POLLIN | POLLHUP`. -/
def POLLIN_HUP : Events := ⟨true, false, true, false, false⟩

/-- `POLLOUT | POLLHUP`. -/
def POLLOUT_HUP : Events := ⟨false, true, true, false, false⟩

/-- No event bits set. -/
def NO_EVENTS : Events := ⟨false, false, false, false, false⟩

/-- Bitwise intersection test `a & b` being nonzero. -/
def intersects (a b : Events) : Bool :=
  (a.pollin && b.pollin) || (a.pollout && b.pollout) || (a.hup && b.hup) ||
  (a.perr && b.perr) || (a.pnval && b.pnval)

/-- One entry of `pollfds`: `fd` is abstracted to whether the slot holds a
live descriptor, plus the requested and reported event sets. -/
structure Slot where
  fdOpen : Bool
  events : Events
  revents : Events
deriving DecidableEq, Repr

/-- One entry of `clients`: the state-machine state, the circular buffer and
whether the `struct tls *ctx` is still owned (not yet freed). -/
structure Conn where
  state : CState
  cb : ClientBuf
  ctxAlive : Bool
deriving DecidableEq, Repr

/-- `client_init`: fresh connection, cursors at the origin, READING. -/
def client_init : Conn := ⟨CState.reading, client_init_buf, true⟩

/-- `closeconn`: drains `tls_close` (the retry loop always terminates in the
model), frees the context, closes and clears the slot, and unconditionally
clears the throttle. -/
def closeconn (sl : Slot) (c : Conn) : Slot × Conn × Bool :=
  (⟨false, sl.events, NO_EVENTS⟩, { c with ctxAlive := false }, false)

/-- `handle_client`, translated branch by branch.  `none` models `errx(1)`:
the whole process aborts.  `rr` is the oracle value `tls_read` would return
in the READING branch and `wr` the value `tls_write` would return in the
WRITING branch; untaken branches ignore their oracle. -/
def handle_client (sl : Slot) (c : Conn) (th : Bool) (rr : RRes) (wr : WRes) :
    Option (Slot × Conn × Bool) :=
  if sl.revents.perr || sl.revents.pnval then
    none
  else if sl.revents.hup then
    some (closeconn sl c)
  else if intersects sl.revents sl.events then
    match c.state with
    | CState.reading =>
      match rr with
      | RRes.wantIn => some ({ sl with events := POLLIN_HUP }, c, th)
      | RRes.wantOut => some ({ sl with events := POLLOUT_HUP }, c, th)
      | RRes.err => some (sl, c, th)
      | RRes.data d =>
        if d.length = 0 then
          some (closeconn sl c)
        else
          if (client_put c.cb d).2 ≠ d.length then
            some (closeconn sl { c with cb := (client_put c.cb d).1 })
          else
            some ({ sl with events := POLLOUT_HUP },
              { c with state := CState.writing, cb := (client_put c.cb d).1 }, th)
    | CState.writing =>
      if (client_get c.cb 4096).2.2 = 0 then
        some ({ sl with events := POLLIN_HUP },
          { c with cb := (client_get c.cb 4096).2.1, state := CState.reading }, th)
      else
        match wr with
        | WRes.wantIn =>
          some ({ sl with events := POLLIN_HUP }, { c with cb := (client_get c.cb 4096).2.1 }, th)
        | WRes.wantOut =>
          some ({ sl with events := POLLOUT_HUP }, { c with cb := (client_get c.cb 4096).2.1 }, th)
        | WRes.err =>
          some (sl, { c with cb := (client_get c.cb 4096).2.1 }, th)
        | WRes.ok m =>
          if m = (client_get c.cb 4096).2.2 then
            some ({ sl with events := POLLIN_HUP },
              { c with cb := (client_consume (client_get c.cb 4096).2.1 m).1,
                       state := CState.reading }, th)
          else
            some (sl,
              { c with cb := (client_consume (client_get c.cb 4096).2.1 m).1 }, th)
  else
    some (sl, c, th)

/-! ### Dispatcher accept step (`main`, accept handling and throttle)

`fdOk` is whether `accept` returned a nonnegative descriptor and `hsOk`
whether `tls_accept_socket` on it succeeded.  Slots `1 .. MAX_CONNECTIONS-1`
are abstracted to their occupancy.  The result carries the updated slots,
the throttle after the step, whether the accepted descriptor was closed,
and whether it was installed into a slot. -/

/-- The `for` loop of the accept block: find the first free slot; on finding
one clear the throttle, then either install the connection (handshake
succeeded) or warn, close the new descriptor and break (handshake failed).
If no slot is free the loop just runs off the end. -/
def scanSlots : List Bool → Bool → List Bool × Bool × Bool × Bool
  | [], _ => ([], true, false, false)
  | occ :: rest, hsOk =>
    if occ then
      ((occ :: (scanSlots rest hsOk).1), (scanSlots rest hsOk).2.1,
        (scanSlots rest hsOk).2.2.1, (scanSlots rest hsOk).2.2.2)
    else
      if hsOk then (true :: rest, false, false, true)
      else (occ :: rest, false, true, false)

/-- The accept block of `main`: `throttle = 1` immediately after `accept`,
then the slot scan runs only when the descriptor is valid. -/
def acceptStep (slots : List Bool) (fdOk hsOk : Bool) : List Bool × Bool × Bool × Bool :=
  if fdOk then scanSlots slots hsOk else (slots, true, false, false)

/-! ### Branch unfoldings of `handle_client` -/

/-- Reported readiness containing only POLLIN. -/
def REV_IN : Events := ⟨true, false, false, false, false⟩

/-- Reported readiness containing only POLLOUT. -/
def REV_OUT : Events := ⟨false, true, false, false, false⟩

/-- Reported readiness containing only POLLERR. -/
def REV_ERR : Events := ⟨false, false, false, true, false⟩

/-- A non-fatal, non-hangup notification that intersects the requested
events reaches the READING branch when the connection is READING. -/
lemma hc_reading (sl : Slot) (c : Conn) (th : Bool) (rr : RRes) (wr : WRes)
    (h1 : sl.revents.perr = false) (h2 : sl.revents.pnval = false)
    (h3 : sl.revents.hup = false) (h4 : intersects sl.revents sl.events = true)
    (h5 : c.state = CState.reading) :
    handle_client sl c th rr wr =
      match rr with
      | RRes.wantIn => some ({ sl with events := POLLIN_HUP }, c, th)
      | RRes.wantOut => some ({ sl with events := POLLOUT_HUP }, c, th)
      | RRes.err => some (sl, c, th)
      | RRes.data d =>
        if d.length = 0 then
          some (closeconn sl c)
        else
          if (client_put c.cb d).2 ≠ d.length then
            some (closeconn sl { c with cb := (client_put c.cb d).1 })
          else
            some ({ sl with events := POLLOUT_HUP },
              { c with state := CState.writing, cb := (client_put c.cb d).1 }, th) := by
  have hcond1 : ¬ ((sl.revents.perr || sl.revents.pnval) = true) := by
    rw [h1, h2]
    simp
  have hcond2 : ¬ (sl.revents.hup = true) := by
    rw [h3]
    simp
  rw [handle_client.eq_def, if_neg hcond1, if_neg hcond2, if_pos h4, h5]

/-- A non-fatal, non-hangup notification that intersects the requested
events reaches the WRITING branch when the connection is WRITING. -/
lemma hc_writing (sl : Slot) (c : Conn) (th : Bool) (rr : RRes) (wr : WRes)
    (h1 : sl.revents.perr = false) (h2 : sl.revents.pnval = false)
    (h3 : sl.revents.hup = false) (h4 : intersects sl.revents sl.events = true)
    (h5 : c.state = CState.writing) :
    handle_client sl c th rr wr =
      (if (client_get c.cb 4096).2.2 = 0 then
        some ({ sl with events := POLLIN_HUP },
          { c with cb := (client_get c.cb 4096).2.1, state := CState.reading }, th)
      else
        match wr with
        | WRes.wantIn =>
          some ({ sl with events := POLLIN_HUP }, { c with cb := (client_get c.cb 4096).2.1 }, th)
        | WRes.wantOut =>
          some ({ sl with events := POLLOUT_HUP }, { c with cb := (client_get c.cb 4096).2.1 }, th)
        | WRes.err =>
          some (sl, { c with cb := (client_get c.cb 4096).2.1 }, th)
        | WRes.ok m =>
          if m = (client_get c.cb 4096).2.2 then
            some ({ sl with events := POLLIN_HUP },
              { c with cb := (client_consume (client_get c.cb 4096).2.1 m).1,
                       state := CState.reading }, th)
          else
            some (sl,
              { c with cb := (client_consume (client_get c.cb 4096).2.1 m).1 }, th)) := by
  have hcond1 : ¬ ((sl.revents.perr || sl.revents.pnval) = true) := by
    rw [h1, h2]
    simp
  have hcond2 : ¬ (sl.revents.hup = true) := by
    rw [h3]
    simp
  rw [handle_client.eq_def, if_neg hcond1, if_neg hcond2, if_pos h4, h5]

/-- READING branch specialized to a hard read error: only the log happens,
nothing changes. -/
lemma hc_reading_err (sl : Slot) (c : Conn) (th : Bool) (wr : WRes)
    (h1 : sl.revents.perr = false) (h2 : sl.revents.pnval = false)
    (h3 : sl.revents.hup = false) (h4 : intersects sl.revents sl.events = true)
    (h5 : c.state = CState.reading) :
    handle_client sl c th RRes.err wr = some (sl, c, th) := by
  rw [hc_reading sl c th RRes.err wr h1 h2 h3 h4 h5]

/-- READING branch specialized to delivered data. -/
lemma hc_reading_data (sl : Slot) (c : Conn) (th : Bool) (wr : WRes) (d : List Nat)
    (h1 : sl.revents.perr = false) (h2 : sl.revents.pnval = false)
    (h3 : sl.revents.hup = false) (h4 : intersects sl.revents sl.events = true)
    (h5 : c.state = CState.reading) :
    handle_client sl c th (RRes.data d) wr =
      (if d.length = 0 then
        some (closeconn sl c)
      else
        if (client_put c.cb d).2 ≠ d.length then
          some (closeconn sl { c with cb := (client_put c.cb d).1 })
        else
          some ({ sl with events := POLLOUT_HUP },
            { c with state := CState.writing, cb := (client_put c.cb d).1 }, th)) := by
  rw [hc_reading sl c th (RRes.data d) wr h1 h2 h3 h4 h5]

/-- WRITING branch specialized to a hard write error: only the log happens,
the connection stays open in WRITING. -/
lemma hc_writing_err (sl : Slot) (c : Conn) (th : Bool) (rr : RRes)
    (h1 : sl.revents.perr = false) (h2 : sl.revents.pnval = false)
    (h3 : sl.revents.hup = false) (h4 : intersects sl.revents sl.events = true)
    (h5 : c.state = CState.writing) :
    handle_client sl c th rr WRes.err =
      (if (client_get c.cb 4096).2.2 = 0 then
        some ({ sl with events := POLLIN_HUP },
          { c with cb := (client_get c.cb 4096).2.1, state := CState.reading }, th)
      else
        some (sl, { c with cb := (client_get c.cb 4096).2.1 }, th)) := by
  rw [hc_writing sl c th rr WRes.err h1 h2 h3 h4 h5]


/-- WRITING branch specialized to a confirmed write of `m` bytes. -/
lemma hc_writing_ok (sl : Slot) (c : Conn) (th : Bool) (rr : RRes) (m : Nat)
    (h1 : sl.revents.perr = false) (h2 : sl.revents.pnval = false)
    (h3 : sl.revents.hup = false) (h4 : intersects sl.revents sl.events = true)
    (h5 : c.state = CState.writing) :
    handle_client sl c th rr (WRes.ok m) =
      (if (client_get c.cb 4096).2.2 = 0 then
        some ({ sl with events := POLLIN_HUP },
          { c with cb := (client_get c.cb 4096).2.1, state := CState.reading }, th)
      else
        if m = (client_get c.cb 4096).2.2 then
          some ({ sl with events := POLLIN_HUP },
            { c with cb := (client_consume (client_get c.cb 4096).2.1 m).1,
                     state := CState.reading }, th)
        else
          some (sl,
            { c with cb := (client_consume (client_get c.cb 4096).2.1 m).1 }, th)) := by
  rw [hc_writing sl c th rr (WRes.ok m) h1 h2 h3 h4 h5]


/-! ### Further facts about `client_get` -/

/-- The count accumulator of `getLoop` never decreases. -/
lemma getLoop_count_mono (fuel : Nat) :
    ∀ (p : Nat) (acc : List Nat) (n : Nat) (c : ClientBuf),
      n ≤ (getLoop fuel p acc n c).2.2 := by
  induction fuel with
  | zero =>
    intro p acc n c
    simp [getLoop]
  | succ fuel ih =>
    intro p acc n c
    by_cases h : p = c.writep
    · simp [getLoop, h]
    · simp only [getLoop, if_neg h]
      exact le_trans (Nat.le_succ n)
        (ih (if p + 1 ≥ 4096 then 0 else p + 1) (acc ++ [c.buf.getD p 0]) (n + 1)
          { c with nextp := if p + 1 ≥ 4096 then 0 else p + 1 })

/-- If `getLoop` copied nothing, it left the buffer state untouched. -/
lemma getLoop_state_of_zero (fuel : Nat) :
    ∀ (p : Nat) (acc : List Nat) (n : Nat) (c : ClientBuf),
      (getLoop fuel p acc n c).2.2 = n → (getLoop fuel p acc n c).2.1 = c := by
  induction fuel with
  | zero =>
    intro p acc n c _
    simp [getLoop]
  | succ fuel ih =>
    intro p acc n c hcount
    by_cases h : p = c.writep
    · simp [getLoop, h]
    · exfalso
      simp only [getLoop, if_neg h] at hcount
      have := getLoop_count_mono fuel (if p + 1 ≥ 4096 then 0 else p + 1)
        (acc ++ [c.buf.getD p 0]) (n + 1) { c with nextp := if p + 1 ≥ 4096 then 0 else p + 1 }
      omega

/-- `client_get` that returns 0 bytes leaves the buffer state untouched. -/
lemma client_get_zero (c : ClientBuf) (outlen : Nat)
    (h : (client_get c outlen).2.2 = 0) : (client_get c outlen).2.1 = c := by
  have := getLoop_state_of_zero outlen c.readp [] 0 c
  simp only [client_get] at h ⊢
  exact this h

/-- `getLoop` never changes the read cursor, the write cursor or the bytes. -/
lemma getLoop_frame (fuel : Nat) :
    ∀ (p : Nat) (acc : List Nat) (n : Nat) (c : ClientBuf),
      (getLoop fuel p acc n c).2.1.readp = c.readp ∧
      (getLoop fuel p acc n c).2.1.writep = c.writep ∧
      (getLoop fuel p acc n c).2.1.buf = c.buf := by
  induction fuel with
  | zero =>
    intro p acc n c
    simp [getLoop]
  | succ fuel ih =>
    intro p acc n c
    by_cases h : p = c.writep
    · simp [getLoop, h]
    · simp only [getLoop, if_neg h]
      have := ih (if p + 1 ≥ 4096 then 0 else p + 1) (acc ++ [c.buf.getD p 0]) (n + 1)
        { c with nextp := if p + 1 ≥ 4096 then 0 else p + 1 }
      simpa using this

/-- The bytes copied and the count returned by `getLoop` do not depend on the
stored peek cursor. -/
lemma getLoop_nextp_irrel (fuel : Nat) :
    ∀ (p : Nat) (acc : List Nat) (n : Nat) (c : ClientBuf) (x : Nat),
      (getLoop fuel p acc n { c with nextp := x }).1 = (getLoop fuel p acc n c).1 ∧
      (getLoop fuel p acc n { c with nextp := x }).2.2 = (getLoop fuel p acc n c).2.2 := by
  induction fuel with
  | zero =>
    intro p acc n c x
    simp [getLoop]
  | succ fuel ih =>
    intro p acc n c x
    by_cases h : p = c.writep
    · simp [getLoop, h]
    · have hw : ({ c with nextp := x } : ClientBuf).writep = c.writep := rfl
      have hb : ({ c with nextp := x } : ClientBuf).buf = c.buf := rfl
      simp only [getLoop, hw, hb, if_neg h]
      have := ih (if p + 1 ≥ 4096 then 0 else p + 1) (acc ++ [c.buf.getD p 0]) (n + 1)
        c (if p + 1 ≥ 4096 then 0 else p + 1)
      simpa using this

/-- The state left by `getLoop` is the input state with at most the peek
cursor replaced. -/
lemma getLoop_state_shape (fuel : Nat) :
    ∀ (p : Nat) (acc : List Nat) (n : Nat) (c : ClientBuf),
      (getLoop fuel p acc n c).2.1 = c ∨
      ∃ y, (getLoop fuel p acc n c).2.1 = { c with nextp := y } := by
  induction fuel with
  | zero =>
    intro p acc n c
    simp [getLoop]
  | succ fuel ih =>
    intro p acc n c
    by_cases h : p = c.writep
    · simp [getLoop, h]
    · simp only [getLoop, if_neg h]
      have := ih (if p + 1 ≥ 4096 then 0 else p + 1) (acc ++ [c.buf.getD p 0]) (n + 1)
        { c with nextp := if p + 1 ≥ 4096 then 0 else p + 1 }
      rcases this with heq | ⟨y, heq⟩
      · right
        exact ⟨if p + 1 ≥ 4096 then 0 else p + 1, heq⟩
      · right
        refine ⟨y, ?_⟩
        simpa using heq

/-- Two consecutive `client_get` calls with no intervening consume copy the
same bytes and return the same count: the second call restarts at the read
cursor rather than continuing from the peek cursor. -/
lemma client_get_repeat (c : ClientBuf) (outlen : Nat) :
    (client_get (client_get c outlen).2.1 outlen).1 = (client_get c outlen).1 ∧
    (client_get (client_get c outlen).2.1 outlen).2.2 = (client_get c outlen).2.2 := by
  rcases getLoop_state_shape outlen c.readp [] 0 c with heq | ⟨y, heq⟩
  · simp only [client_get] at *
    rw [heq]
    exact ⟨rfl, rfl⟩
  · simp only [client_get] at *
    rw [heq]
    have hr : ({ c with nextp := y } : ClientBuf).readp = c.readp := rfl
    rw [hr]
    exact getLoop_nextp_irrel outlen c.readp [] 0 c y

/-! ### Echo scenarios

A scenario step delivers one readiness notification to a connection by
setting the slot revents and running `handle_client`; the (unreachable)
fatal outcome keeps the state, so the scenario functions are total. -/

/-- Unpack a `handle_client` result, keeping the previous state on the
fatal outcome (which the scenarios never hit). -/
def orKeep (s : Slot × Conn × Bool) (r : Option (Slot × Conn × Bool)) : Slot × Conn × Bool :=
  match r with
  | some x => x
  | none => s

/-- Deliver a POLLIN notification with `tls_read` returning `d`. -/
def readStep (s : Slot × Conn × Bool) (d : List Nat) : Slot × Conn × Bool :=
  orKeep s (handle_client { s.1 with revents := REV_IN } s.2.1 s.2.2 (RRes.data d) (WRes.ok 0))

/-- Deliver a POLLOUT notification with `tls_write` confirming `m` bytes. -/
def stepWrite (s : Slot × Conn × Bool) (m : Nat) : Slot × Conn × Bool :=
  orKeep s (handle_client { s.1 with revents := REV_OUT } s.2.1 s.2.2 RRes.err (WRes.ok m))

/-- A fresh slot as set up by `newconn` followed by a POLLIN notification. -/
def slotIn : Slot := ⟨true, POLLIN_HUP, REV_IN⟩

/-- Receive `d`, then complete the echo with the partial write counts `ms`. -/
def runEcho (d : List Nat) (ms : List Nat) : Slot × Conn × Bool :=
  ms.foldl stepWrite (readStep (slotIn, client_init, false) d)

/-- One full echo transaction: one read of `d`, one write confirming all of
it. -/
def echoRound (s : Slot × Conn × Bool) (d : List Nat) : Slot × Conn × Bool :=
  stepWrite (readStep s d) d.length

/-- Effect of `readStep` on a READING connection whose buffer is empty with
both data cursors at `p`: the bytes are accepted in full and the connection
moves to WRITING requesting POLLOUT. -/
lemma readStep_spec (sl : Slot) (c : Conn) (th : Bool) (d : List Nat) (p : Nat)
    (hev : sl.events = POLLIN_HUP)
    (hst : c.state = CState.reading) (hr : c.cb.readp = p) (hw : c.cb.writep = p)
    (hp : p < 4096) (hd : 0 < d.length) (hlen : d.length ≤ 4095) :
    readStep (sl, c, th) d
      = ({ sl with revents := REV_IN, events := POLLOUT_HUP },
         { c with state := CState.writing, cb := (client_put c.cb d).1 }, th) ∧
    (client_put c.cb d).1.readp = p ∧
    (client_put c.cb d).1.writep = (p + d.length) % 4096 ∧
    (client_put c.cb d).2 = d.length := by
  have hused : usedOf c.cb = 0 := by
    rw [usedOf, hr, hw]
    omega
  have hamt : putAmt d c.cb = d.length := by
    rw [putAmt, hused]
    omega
  have hput := client_put_spec c.cb d (by omega) (by omega)
  rw [hamt] at hput
  have hint : intersects REV_IN ({ sl with revents := REV_IN } : Slot).events = true := by
    rw [show ({ sl with revents := REV_IN } : Slot).events = sl.events from rfl, hev]
    decide
  have hrd := hc_reading_data { sl with revents := REV_IN } c th (WRes.ok 0) d
    rfl rfl rfl hint hst
  rw [if_neg (by omega : ¬ d.length = 0),
    if_neg (by rw [hput.1]; simp)] at hrd
  refine ⟨?_, by rw [hput.2.1, hr], by rw [hput.2.2.2.1, hw], hput.1⟩
  show orKeep (sl, c, th)
    (handle_client { sl with revents := REV_IN } c th (RRes.data d) (WRes.ok 0)) = _
  rw [hrd]
  rfl

/-- Effect of `stepWrite` on a WRITING connection holding bytes `k..N-1`
(read cursor `k`, write cursor `N`, `k < N ≤ 4095`) when the channel
confirms `m ≤ N - k` bytes: the confirmed bytes are consumed; if they
complete the buffered data the connection returns to READING, otherwise it
stays WRITING with POLLOUT still requested. -/
lemma stepWrite_spec (sl : Slot) (c : Conn) (th : Bool) (m k N : Nat)
    (hev : sl.events = POLLOUT_HUP)
    (hst : c.state = CState.writing) (hr : c.cb.readp = k) (hw : c.cb.writep = N)
    (hkN : k < N) (hN : N ≤ 4095) (hmk : k + m ≤ N) :
    (stepWrite (sl, c, th) m).1.fdOpen = sl.fdOpen ∧
    (stepWrite (sl, c, th) m).2.2 = th ∧
    (stepWrite (sl, c, th) m).2.1.ctxAlive = c.ctxAlive ∧
    (stepWrite (sl, c, th) m).2.1.cb.readp = k + m ∧
    (stepWrite (sl, c, th) m).2.1.cb.writep = N ∧
    (stepWrite (sl, c, th) m).2.1.cb.nextp = N ∧
    (m = N - k →
      (stepWrite (sl, c, th) m).2.1.state = CState.reading ∧
      (stepWrite (sl, c, th) m).1.events = POLLIN_HUP) ∧
    (m < N - k →
      (stepWrite (sl, c, th) m).2.1.state = CState.writing ∧
      (stepWrite (sl, c, th) m).1.events = POLLOUT_HUP) := by
  have hget := client_get_spec c.cb 4096 (by omega) (by omega)
  have husedc : usedOf c.cb = N - k := by
    rw [usedOf, hr, hw]
    omega
  have hamt : min 4096 (usedOf c.cb) = N - k := by
    rw [husedc]
    omega
  rw [hamt] at hget
  have hlen : (client_get c.cb 4096).2.2 = N - k := hget.2.2.2.2
  have hg1r : (client_get c.cb 4096).2.1.readp = k := by rw [hget.1, hr]
  have hg1w : (client_get c.cb 4096).2.1.writep = N := by rw [hget.2.1, hw]
  have hg1n : (client_get c.cb 4096).2.1.nextp = N := by
    rw [hget.2.2.2.1, if_neg (by omega), hr]
    omega
  have hcons := client_consume_spec (client_get c.cb 4096).2.1 m
  have hcamt : consumeAmt (client_get c.cb 4096).2.1 m = m := by
    rw [consumeAmt, if_pos (by omega), hg1n, hg1r]
    omega
  rw [hcamt] at hcons
  have hccr : (client_consume (client_get c.cb 4096).2.1 m).1.readp = k + m := by
    rw [hcons.1, hg1r]
  have hccw : (client_consume (client_get c.cb 4096).2.1 m).1.writep = N := by
    rw [hcons.2.1, hg1w]
  have hccn : (client_consume (client_get c.cb 4096).2.1 m).1.nextp = N := by
    rw [hcons.2.2.1, hg1n]
  have hint : intersects REV_OUT ({ sl with revents := REV_OUT } : Slot).events = true := by
    rw [show ({ sl with revents := REV_OUT } : Slot).events = sl.events from rfl, hev]
    decide
  have hwr := hc_writing_ok { sl with revents := REV_OUT } c th RRes.err m
    rfl rfl rfl hint hst
  rw [if_neg (by omega : ¬ (client_get c.cb 4096).2.2 = 0)] at hwr
  by_cases hfull : m = (client_get c.cb 4096).2.2
  · rw [if_pos hfull] at hwr
    have hsw : stepWrite (sl, c, th) m
        = ({ { sl with revents := REV_OUT } with events := POLLIN_HUP },
           { c with cb := (client_consume (client_get c.cb 4096).2.1 m).1,
                    state := CState.reading }, th) := by
      show orKeep (sl, c, th)
        (handle_client { sl with revents := REV_OUT } c th RRes.err (WRes.ok m)) = _
      rw [hwr]
      rfl
    refine ⟨by rw [hsw], by rw [hsw], by rw [hsw], by rw [hsw]; exact hccr,
      by rw [hsw]; exact hccw, by rw [hsw]; exact hccn,
      fun _ => ⟨by rw [hsw], by rw [hsw]⟩, fun hlt => by omega⟩
  · rw [if_neg hfull] at hwr
    have hsw : stepWrite (sl, c, th) m
        = ({ sl with revents := REV_OUT },
           { c with cb := (client_consume (client_get c.cb 4096).2.1 m).1 }, th) := by
      show orKeep (sl, c, th)
        (handle_client { sl with revents := REV_OUT } c th RRes.err (WRes.ok m)) = _
      rw [hwr]
      rfl
    refine ⟨by rw [hsw], by rw [hsw], by rw [hsw], by rw [hsw]; exact hccr,
      by rw [hsw]; exact hccw, by rw [hsw]; exact hccn,
      fun heq => by omega,
      fun _ => ⟨by rw [hsw]; exact hst, by rw [hsw]; exact hev⟩⟩

/-- Nonempty list of positive numbers has positive sum; a sum-zero tail is
empty. -/
lemma pos_sum_ne_nil {ms : List Nat} (hpos : ∀ m ∈ ms, 0 < m) (hsum : ms.sum = 0) :
    ms = [] := by
  cases ms with
  | nil => rfl
  | cons m rest =>
    exfalso
    have hm := hpos m (by simp)
    have : m + rest.sum = 0 := by simpa using hsum
    omega

/-- Folding `stepWrite` over partial write counts that are positive and sum
to the outstanding byte count drains the buffer and returns the connection
to READING, leaving the slot open and the throttle untouched. -/
lemma writeSteps_aux :
    ∀ (ms : List Nat) (sl : Slot) (c : Conn) (th : Bool) (k N : Nat),
      sl.fdOpen = true → sl.events = POLLOUT_HUP →
      c.state = CState.writing → c.ctxAlive = true →
      c.cb.readp = k → c.cb.writep = N → k < N → N ≤ 4095 →
      ms ≠ [] → (∀ m ∈ ms, 0 < m) → k + ms.sum = N →
      (ms.foldl stepWrite (sl, c, th)).2.1.state = CState.reading ∧
      (ms.foldl stepWrite (sl, c, th)).2.1.cb.readp = N ∧
      (ms.foldl stepWrite (sl, c, th)).2.1.cb.writep = N ∧
      (ms.foldl stepWrite (sl, c, th)).1.fdOpen = true ∧
      (ms.foldl stepWrite (sl, c, th)).2.1.ctxAlive = true ∧
      (ms.foldl stepWrite (sl, c, th)).2.2 = th := by
  intro ms
  induction ms with
  | nil =>
    intro sl c th k N _ _ _ _ _ _ _ _ hne _ _
    exact absurd rfl hne
  | cons m rest ih =>
    intro sl c th k N hopen hev hst hctx hr hw hkN hN _ hpos hsum
    have hm : 0 < m := hpos m (by simp)
    have hsum' : m + rest.sum = N - k := by
      have : k + (m + rest.sum) = N := by simpa using hsum
      omega
    have hmk : k + m ≤ N := by omega
    have hsw := stepWrite_spec sl c th m k N hev hst hr hw hkN hN hmk
    simp only [List.foldl_cons]
    by_cases hrest : rest = []
    · subst hrest
      have hmN : m = N - k := by
        simp at hsum'
        omega
      simp only [List.foldl_nil]
      obtain ⟨e1, e2, e3, e4, e5, e6, e7, _⟩ := hsw
      obtain ⟨es, ee⟩ := e7 hmN
      refine ⟨es, by omega, e5, by rw [e1]; exact hopen, by rw [e3]; exact hctx, e2⟩
    · have hrsum : 0 < rest.sum := by
        cases rest with
        | nil => exact absurd rfl hrest
        | cons r rs =>
          have := hpos r (by simp)
          have : r ≤ (r :: rs).sum := by
            simp only [List.sum_cons]
            omega
          omega
      have hmlt : m < N - k := by omega
      obtain ⟨e1, e2, e3, e4, e5, e6, _, e8⟩ := hsw
      obtain ⟨es, ee⟩ := e8 hmlt
      have hres := ih (stepWrite (sl, c, th) m).1 (stepWrite (sl, c, th) m).2.1
        (stepWrite (sl, c, th) m).2.2 (k + m) N
        (by rw [e1, hopen]) ee es (by rw [e3, hctx]) e4 e5 (by omega) hN
        hrest (fun x hx => hpos x (by simp [hx])) (by omega)
      have hX : ((stepWrite (sl, c, th) m).1, (stepWrite (sl, c, th) m).2.1,
          (stepWrite (sl, c, th) m).2.2) = stepWrite (sl, c, th) m := rfl
      rw [hX, e2] at hres
      exact hres

/-- One full echo round from a READING connection with both data cursors at
`p`, provided the round does not cross the end of the array. -/
lemma echoRound_spec (s : Slot × Conn × Bool) (d : List Nat) (p : Nat)
    (hopen : s.1.fdOpen = true) (hev : s.1.events = POLLIN_HUP)
    (hst : s.2.1.state = CState.reading) (hctx : s.2.1.ctxAlive = true)
    (hr : s.2.1.cb.readp = p) (hw : s.2.1.cb.writep = p)
    (hd : 0 < d.length) (hlen : p + d.length ≤ 4095) :
    (echoRound s d).1.fdOpen = true ∧
    (echoRound s d).1.events = POLLIN_HUP ∧
    (echoRound s d).2.1.state = CState.reading ∧
    (echoRound s d).2.1.ctxAlive = true ∧
    (echoRound s d).2.1.cb.readp = p + d.length ∧
    (echoRound s d).2.1.cb.writep = p + d.length ∧
    (echoRound s d).2.2 = s.2.2 := by
  obtain ⟨sl, c, th⟩ := s
  simp only at hopen hev hst hctx hr hw
  have hrd := readStep_spec sl c th d p hev hst hr hw (by omega) hd (by omega)
  have hwmod : (p + d.length) % 4096 = p + d.length := by omega
  rw [hwmod] at hrd
  rw [echoRound]
  simp only at hrd ⊢
  rw [hrd.1]
  have hsw := stepWrite_spec { sl with revents := REV_IN, events := POLLOUT_HUP }
    { c with state := CState.writing, cb := (client_put c.cb d).1 } th d.length p (p + d.length)
    rfl rfl hrd.2.1 hrd.2.2.1 (by omega) (by omega) (by omega)
  obtain ⟨e1, e2, e3, e4, e5, _, e7, _⟩ := hsw
  obtain ⟨es, ee⟩ := e7 (by omega)
  refine ⟨?_, ee, es, ?_, by rw [e4], e5, e2⟩
  · rw [e1]
    exact hopen
  · rw [e3]
    exact hctx

/-- Folding whole echo rounds advances both data cursors by the total
length, as long as the rounds stay inside the array. -/
lemma echoRounds_aux :
    ∀ (ds : List (List Nat)) (s : Slot × Conn × Bool) (p : Nat),
      s.1.fdOpen = true → s.1.events = POLLIN_HUP →
      s.2.1.state = CState.reading → s.2.1.ctxAlive = true →
      s.2.1.cb.readp = p → s.2.1.cb.writep = p →
      (∀ d ∈ ds, 0 < d.length) → p + (ds.map List.length).sum ≤ 4095 →
      (ds.foldl echoRound s).1.fdOpen = true ∧
      (ds.foldl echoRound s).1.events = POLLIN_HUP ∧
      (ds.foldl echoRound s).2.1.state = CState.reading ∧
      (ds.foldl echoRound s).2.1.ctxAlive = true ∧
      (ds.foldl echoRound s).2.1.cb.readp = p + (ds.map List.length).sum ∧
      (ds.foldl echoRound s).2.1.cb.writep = p + (ds.map List.length).sum := by
  intro ds
  induction ds with
  | nil =>
    intro s p h1 h2 h3 h4 h5 h6 _ _
    simpa using ⟨h1, h2, h3, h4, h5, h6⟩
  | cons d rest ih =>
    intro s p h1 h2 h3 h4 h5 h6 hpos hbound
    have hd : 0 < d.length := hpos d (by simp)
    have hbound' : p + d.length + ((rest.map List.length).sum) ≤ 4095 := by
      have : (((d :: rest).map List.length).sum) = d.length + (rest.map List.length).sum := by
        simp
      omega
    have hround := echoRound_spec s d p h1 h2 h3 h4 h5 h6 hd (by omega)
    simp only [List.foldl_cons]
    have hres := ih (echoRound s d) (p + d.length)
      hround.1 hround.2.1 hround.2.2.1 hround.2.2.2.1 hround.2.2.2.2.1 hround.2.2.2.2.2.1
      (fun x hx => hpos x (by simp [hx])) (by omega)
    have hsum : ((d :: rest).map List.length).sum = d.length + (rest.map List.length).sum := by
      simp
    refine ⟨hres.1, hres.2.1, hres.2.2.1, hres.2.2.2.1, ?_, ?_⟩
    · rw [hres.2.2.2.2.1]
      omega
    · rw [hres.2.2.2.2.2]
      omega

/-- The wraparound echo round: a READING connection with an empty buffer at
cursor 4090 receives 10 bytes which wrap around the end of the array, and
the channel write confirms all 10.  The consume marches the read cursor to
4100 — outside the array — while the write cursor sits at 4, so the buffer
does not return to the empty state even though every byte was confirmed
written. -/
lemma wrapRound_spec (s : Slot × Conn × Bool) (d : List Nat)
    (hopen : s.1.fdOpen = true) (hev : s.1.events = POLLIN_HUP)
    (hst : s.2.1.state = CState.reading) (hctx : s.2.1.ctxAlive = true)
    (hr : s.2.1.cb.readp = 4090) (hw : s.2.1.cb.writep = 4090)
    (hd : d.length = 10) :
    (echoRound s d).1.fdOpen = true ∧
    (echoRound s d).2.1.state = CState.reading ∧
    (echoRound s d).2.1.ctxAlive = true ∧
    (echoRound s d).2.1.cb.readp = 4100 ∧
    (echoRound s d).2.1.cb.writep = 4 := by
  obtain ⟨sl, c, th⟩ := s
  have hrd := readStep_spec sl c th d 4090 hev hst hr hw (by omega) (by omega) (by omega)
  rw [hd] at hrd
  have hwmod : (4090 + 10) % 4096 = 4 := by norm_num
  rw [hwmod] at hrd
  rw [echoRound]
  rw [hrd.1, hd]
  set c' : Conn := { c with state := CState.writing, cb := (client_put c.cb d).1 } with hc'
  have hc'st : c'.state = CState.writing := rfl
  have hc'r : c'.cb.readp = 4090 := hrd.2.1
  have hc'w : c'.cb.writep = 4 := hrd.2.2.1
  have hget := client_get_spec c'.cb 4096 (by omega) (by omega)
  have husedc : usedOf c'.cb = 10 := by
    rw [usedOf, hc'r, hc'w]
  have hamt : min 4096 (usedOf c'.cb) = 10 := by
    rw [husedc]
    norm_num
  rw [hamt] at hget
  have hg1r : (client_get c'.cb 4096).2.1.readp = 4090 := by rw [hget.1, hc'r]
  have hg1w : (client_get c'.cb 4096).2.1.writep = 4 := by rw [hget.2.1, hc'w]
  have hg1n : (client_get c'.cb 4096).2.1.nextp = 4 := by
    rw [hget.2.2.2.1, if_neg (by omega), hc'r]
  have hcons := client_consume_spec (client_get c'.cb 4096).2.1 10
  have hcamt : consumeAmt (client_get c'.cb 4096).2.1 10 = 10 := by
    rw [consumeAmt, if_neg (by rw [hg1r, hg1n]; omega)]
  rw [hcamt] at hcons
  have hint : intersects REV_OUT ({ { sl with revents := REV_IN, events := POLLOUT_HUP } with revents := REV_OUT } : Slot).events = true := by
    show intersects REV_OUT POLLOUT_HUP = true
    decide
  have hwr := hc_writing_ok { { sl with revents := REV_IN, events := POLLOUT_HUP } with revents := REV_OUT }
    c' th RRes.err 10 rfl rfl rfl hint hc'st
  rw [if_neg (by rw [hget.2.2.2.2]; omega), if_pos (by rw [hget.2.2.2.2])] at hwr
  rw [stepWrite]
  simp only [hwr, orKeep]
  refine ⟨hopen, trivial, hctx, ?_, ?_⟩
  · rw [hcons.1, hg1r]
  · rw [hcons.2.1, hg1w]

/-- Behaviour of the slot scan: the throttle ends clear exactly when a free
slot exists; a failed handshake closes the new descriptor (after the
throttle was already cleared); with no free slot nothing is closed and the
slots are untouched. -/
lemma scanSlots_spec (slots : List Bool) (hsOk : Bool) :
    ((scanSlots slots hsOk).2.1 = false ↔ slots.contains false = true) ∧
    (slots.contains false = true → hsOk = false → (scanSlots slots hsOk).2.2.1 = true) ∧
    (slots.contains false = false →
      (scanSlots slots hsOk).2.2.1 = false ∧ (scanSlots slots hsOk).1 = slots) := by
  induction slots with
  | nil =>
    simp [scanSlots]
  | cons occ rest ih =>
    cases occ with
    | true =>
      have hcont : ((true :: rest).contains false) = rest.contains false := by
        simp [List.contains_cons]
      refine ⟨?_, ?_, ?_⟩
      · rw [show (scanSlots (true :: rest) hsOk).2.1 = (scanSlots rest hsOk).2.1 from rfl, hcont]
        exact ih.1
      · rw [hcont]
        intro h1 h2
        rw [show (scanSlots (true :: rest) hsOk).2.2.1 = (scanSlots rest hsOk).2.2.1 from rfl]
        exact ih.2.1 h1 h2
      · rw [hcont]
        intro h1
        refine ⟨?_, ?_⟩
        · rw [show (scanSlots (true :: rest) hsOk).2.2.1 = (scanSlots rest hsOk).2.2.1 from rfl]
          exact (ih.2.2 h1).1
        · rw [show (scanSlots (true :: rest) hsOk).1 = true :: (scanSlots rest hsOk).1 from rfl]
          rw [(ih.2.2 h1).2]
    | false =>
      cases hsOk with
      | true =>
        refine ⟨by simp [scanSlots], by simp [scanSlots], by simp⟩
      | false =>
        refine ⟨by simp [scanSlots], by simp [scanSlots], by simp⟩

/-! ### Claim theorems -/

/-- C1: the failing run evaluated on the code.  The two `client_put` calls
accept 4100 bytes in total, yet the three `client_consume` calls report
4105 bytes consumed: after the consume that crosses the end of the array
leaves the read cursor at offset 4100, a further peek returns 5 bytes that
were never put in (stale plus out-of-range), and consuming them pushes the
consumed total past the put total, violating both halves of the claimed
round-trip property. -/
theorem C1_consumed_exceeds_put :
    bugPutTotal = 4100 ∧ bugConsumeTotal = 4105 ∧ bugPutTotal < bugConsumeTotal := by
  obtain ⟨h1, h2, h3, h4, _, _, _, _, h9⟩ := bugRun_facts
  refine ⟨?_, ?_, ?_⟩
  · show bugPut1.2 + bugPut2.2 = 4100
    rw [h1, h3]
  · show bugCons1.2 + bugCons2.2 + bugCons3.2 = 4105
    rw [h2, h4, h9]
  · show bugPut1.2 + bugPut2.2 < bugCons1.2 + bugCons2.2 + bugCons3.2
    rw [h1, h2, h3, h4, h9]
    norm_num

/-- C2: the read cursor does not wrap modulo the capacity.  After the
reachable operation sequence put 4090 / peek 4090 / consume 4090 / put 10 /
peek 10 / consume 10, the final `client_consume` crosses the end of the
4096-byte array and leaves the read cursor at offset 4100, outside
`[0, 4096)`. -/
theorem C2_read_cursor_escapes_range :
    bugS6.readp = 4100 ∧ ¬ bugS6.readp < 4096 := by
  obtain ⟨_, _, _, _, h5, _, _, _, _⟩ := bugRun_facts
  exact ⟨h5, by omega⟩

/-- A WRITING connection slot whose POLLOUT readiness fired. -/
def slotOutW : Slot := ⟨true, POLLOUT_HUP, REV_OUT⟩

/-- A WRITING connection with an empty (freshly initialized) buffer. -/
def connEmptyW : Conn := ⟨CState.writing, client_init_buf, true⟩

/-- C3 counterexample: a WRITING connection with an empty buffer that
receives a readiness notification intersecting its requested events is
moved to READING by `handle_client` (`ret == len` with both 0), not left in
WRITING as claimed. -/
theorem C3_counterexample :
    (handle_client slotOutW connEmptyW true RRes.err WRes.err).map (fun r => r.2.1.state)
        = some CState.reading ∧
    (client_get connEmptyW.cb 4096).2.2 = 0 := by
  exact ⟨rfl, rfl⟩

/-- C3 amended: if `client_get` returns zero bytes, the state machine
attempts no channel I/O (the write oracle is not consulted) but transitions
the connection back to READING, requesting readable, in that same
notification. -/
theorem C3_empty_write_demotes_to_reading (sl : Slot) (c : Conn) (th : Bool)
    (rr : RRes) (wr : WRes)
    (h1 : sl.revents.perr = false) (h2 : sl.revents.pnval = false)
    (h3 : sl.revents.hup = false) (h4 : intersects sl.revents sl.events = true)
    (h5 : c.state = CState.writing) (h6 : (client_get c.cb 4096).2.2 = 0) :
    handle_client sl c th rr wr
      = some ({ sl with events := POLLIN_HUP }, { c with state := CState.reading }, th) := by
  rw [hc_writing sl c th rr wr h1 h2 h3 h4 h5, if_pos h6, client_get_zero c.cb 4096 h6]

/-- C3 witness: the amended statement at the concrete empty WRITING
connection. -/
theorem C3_witness :
    handle_client slotOutW connEmptyW true RRes.err WRes.err
      = some ({ slotOutW with events := POLLIN_HUP },
          { connEmptyW with state := CState.reading }, true) :=
  C3_empty_write_demotes_to_reading slotOutW connEmptyW true RRes.err WRes.err
    rfl rfl rfl (by decide) rfl (by decide)

/-- C4 counterexample: a READING connection whose `tls_read` reports a hard
error is returned completely unchanged — the slot stays open and the secure
channel stays owned — contradicting the claim that the connection is closed
and the channel freed. -/
theorem C4_counterexample :
    handle_client slotIn client_init false RRes.err (WRes.ok 0)
        = some (slotIn, client_init, false) ∧
    slotIn.fdOpen = true ∧ client_init.ctxAlive = true := by
  exact ⟨rfl, rfl, rfl⟩

/-- C4 amended: on a hard channel error the state machine only logs: the
slot, the connection state, the ownership of the secure channel and the
throttle are all left unchanged (in the WRITING case only the peek cursor
inside the buffer has moved); the connection is not closed. -/
theorem C4_hard_error_only_logs (sl : Slot) (c : Conn) (th : Bool) (rr : RRes) (wr : WRes)
    (h1 : sl.revents.perr = false) (h2 : sl.revents.pnval = false)
    (h3 : sl.revents.hup = false) (h4 : intersects sl.revents sl.events = true) :
    (c.state = CState.reading → rr = RRes.err →
      handle_client sl c th rr wr = some (sl, c, th)) ∧
    (c.state = CState.writing → wr = WRes.err → (client_get c.cb 4096).2.2 ≠ 0 →
      handle_client sl c th rr wr
        = some (sl, { c with cb := (client_get c.cb 4096).2.1 }, th)) := by
  constructor
  · intro h5 h6
    subst h6
    rw [hc_reading sl c th RRes.err wr h1 h2 h3 h4 h5]
  · intro h5 h6 h7
    subst h6
    rw [hc_writing sl c th rr WRes.err h1 h2 h3 h4 h5, if_neg h7]

/-- C4 witness: the amended statement at a concrete READING connection with
a hard read error. -/
theorem C4_witness :
    handle_client slotIn client_init false RRes.err (WRes.ok 0)
      = some (slotIn, client_init, false) :=
  (C4_hard_error_only_logs slotIn client_init false RRes.err (WRes.ok 0)
    rfl rfl rfl (by decide)).1 rfl rfl

/-- C5 counterexample: with one free slot, a valid descriptor and a failing
handshake the throttle ends clear (the claim says it stays set), and with
the table full the accepted descriptor is not closed (the claim says it is
closed). -/
theorem C5_counterexample :
    (acceptStep [false] true false).2.1 = false ∧
    (acceptStep [false] true false).2.2.1 = true ∧
    (acceptStep [true] true true).2.2.1 = false := by
  decide

/-- C5 amended: after an accept event the throttle is clear if and only if
the descriptor was valid and a free slot was found — the throttle is cleared
when the slot is found, before the handshake, so a failed handshake closes
the descriptor but leaves the throttle clear; when no free slot exists the
descriptor is not closed (it leaks) and the slots are untouched; and closing
a connection unconditionally clears the throttle. -/
theorem C5_throttle_iff_free_slot (slots : List Bool) (fdOk hsOk : Bool) :
    ((acceptStep slots fdOk hsOk).2.1 = false ↔
      (fdOk = true ∧ slots.contains false = true)) ∧
    (fdOk = true → slots.contains false = true → hsOk = false →
      (acceptStep slots fdOk hsOk).2.2.1 = true) ∧
    (fdOk = true → slots.contains false = false →
      (acceptStep slots fdOk hsOk).2.2.1 = false ∧ (acceptStep slots fdOk hsOk).1 = slots) ∧
    (∀ (sl : Slot) (c : Conn), (closeconn sl c).2.2 = false) := by
  cases fdOk with
  | true =>
    have h := scanSlots_spec slots hsOk
    rw [show acceptStep slots true hsOk = scanSlots slots hsOk from rfl]
    refine ⟨⟨fun hh => ⟨rfl, h.1.mp hh⟩, fun hc => h.1.mpr hc.2⟩,
      fun _ hc hh => h.2.1 hc hh, fun _ hc => h.2.2 hc, fun sl c => rfl⟩
  | false =>
    rw [show acceptStep slots false hsOk = (slots, true, false, false) from rfl]
    refine ⟨by simp, by simp, by simp, fun sl c => rfl⟩

/-- C5 witness: the amended statement instantiated at a table with a free
slot. -/
theorem C5_witness : (acceptStep [false, true] true true).2.1 = false :=
  (C5_throttle_iff_free_slot [false, true] true true).1.mpr ⟨rfl, by decide⟩

/-- The buffer after putting the two bytes 7, 8 into a fresh buffer. -/
def c6state : ClientBuf := (client_put client_init_buf [7, 8]).1

/-- C6 counterexample: after the first peek the peek cursor sits at 2, equal
to the write cursor, so a peek continuing from the peek cursor would return
0 bytes; instead the second `client_get` starts again at the read cursor and
returns the same two bytes — the two ranges coincide instead of being
disjoint and consecutive. -/
theorem C6_counterexample :
    (client_get c6state 2).1 = [7, 8] ∧
    (client_get c6state 2).2.1.nextp = 2 ∧
    (client_get c6state 2).2.1.writep = 2 ∧
    (client_get ((client_get c6state 2).2.1) 2).1 = [7, 8] ∧
    (client_get ((client_get c6state 2).2.1) 2).2.2 = 2 := by
  decide

/-- C6 amended: `client_get` copies up to `max` bytes starting at the read
cursor (not at the saved peek cursor), returns `min max used` bytes, parks
the peek cursor just past the copied region when anything was copied, and
leaves the read cursor, write cursor and contents alone; consequently two
consecutive `client_get` calls with no intervening consume return identical
bytes and counts — the second restarts at the read cursor. -/
theorem C6_peek_restarts_at_read_cursor (c : ClientBuf) (outlen : Nat)
    (hr : c.readp < 4096) (hw : c.writep < 4096) :
    (client_get c outlen).2.2 = min outlen (usedOf c) ∧
    ((client_get c outlen).2.2 ≠ 0 →
      (client_get c outlen).2.1.nextp = (c.readp + (client_get c outlen).2.2) % 4096) ∧
    (client_get c outlen).2.1.readp = c.readp ∧
    (client_get c outlen).2.1.writep = c.writep ∧
    (client_get c outlen).2.1.buf = c.buf ∧
    (client_get (client_get c outlen).2.1 outlen).1 = (client_get c outlen).1 ∧
    (client_get (client_get c outlen).2.1 outlen).2.2 = (client_get c outlen).2.2 := by
  have h := client_get_spec c outlen hr hw
  have hrep := client_get_repeat c outlen
  refine ⟨h.2.2.2.2, ?_, h.1, h.2.1, h.2.2.1, hrep.1, hrep.2⟩
  intro hne
  rw [h.2.2.2.2] at hne
  rw [h.2.2.2.1, if_neg hne, h.2.2.2.2]

/-- C6 witness: the amended statement at the concrete two-byte buffer. -/
theorem C6_witness : (client_get c6state 2).2.2 = min 2 (usedOf c6state) :=
  (C6_peek_restarts_at_read_cursor c6state 2 (by decide) (by decide)).1

/-- A fresh connection receiving a full 4096-byte read. -/
def bigReadState : Slot × Conn × Bool :=
  readStep (slotIn, client_init, false) (List.replicate 4096 1)

/-- Forty 100-byte echo rounds followed by one 90-byte round: a reachable
way to park both data cursors at 4090 with the buffer empty. -/
def wrapRounds : List (List Nat) :=
  List.replicate 40 (List.replicate 100 3) ++ [List.replicate 90 3]

/-- The connection after the 41 in-range echo rounds. -/
def wrapState : Slot × Conn × Bool :=
  wrapRounds.foldl echoRound (slotIn, client_init, false)

/-- The connection after one further 10-byte echo round, which wraps around
the end of the array. -/
def wrapFinal : Slot × Conn × Bool :=
  echoRound wrapState (List.replicate 10 2)

/-- Fields of `wrapState`: reachable READING state, buffer empty at cursor
4090. -/
lemma wrapState_facts :
    wrapState.1.fdOpen = true ∧ wrapState.1.events = POLLIN_HUP ∧
    wrapState.2.1.state = CState.reading ∧ wrapState.2.1.ctxAlive = true ∧
    wrapState.2.1.cb.readp = 4090 ∧ wrapState.2.1.cb.writep = 4090 := by
  have hpos : ∀ d ∈ wrapRounds, 0 < d.length := by
    intro d hd
    rw [wrapRounds] at hd
    rcases List.mem_append.mp hd with h | h
    · rcases List.mem_replicate.mp h with ⟨_, rfl⟩
      simp
    · rcases List.mem_singleton.mp h with rfl
      simp
  have hsum : (wrapRounds.map List.length).sum = 4090 := by
    rw [wrapRounds]
    simp [List.map_replicate, List.sum_replicate]
  have h := echoRounds_aux wrapRounds (slotIn, client_init, false) 0
    rfl rfl rfl rfl rfl rfl hpos (by rw [hsum]; norm_num)
  rw [hsum] at h
  exact ⟨h.1, h.2.1, h.2.2.1, h.2.2.2.1, h.2.2.2.2.1, h.2.2.2.2.2⟩

/-- C7 counterexample, two parts.  First, N = 4096 = capacity: the buffer
accepts only 4095 bytes, `handle_client` treats the short copy as a buffer
failure and closes the fresh connection instead of echoing.  Second, N = 10
on a reachable READING connection whose empty buffer sits at cursor 4090:
after the read and a write confirming all 10 bytes the connection is back in
READING but its buffer is not empty — the read cursor is at 4100 and the
write cursor at 4, because the consume crossed the end of the array without
wrapping. -/
theorem C7_counterexample :
    bigReadState.1.fdOpen = false ∧
    (wrapFinal.2.1.state = CState.reading ∧ wrapFinal.1.fdOpen = true ∧
      wrapFinal.2.1.cb.readp = 4100 ∧ wrapFinal.2.1.cb.writep = 4 ∧
      wrapFinal.2.1.cb.readp ≠ wrapFinal.2.1.cb.writep) := by
  constructor
  · obtain ⟨B, hB, _, _⟩ := client_put_ex client_init_buf (List.replicate 4096 1)
      (by norm_num [client_init_buf]) (by norm_num [client_init_buf])
    have hamt : putAmt (List.replicate 4096 1) client_init_buf = 4095 := by
      norm_num [putAmt, usedOf, client_init_buf]
    rw [hamt] at hB
    have hrd := hc_reading_data { slotIn with revents := REV_IN } client_init false
      (WRes.ok 0) (List.replicate 4096 1) rfl rfl rfl (by decide) rfl
    rw [show (client_init : Conn).cb = client_init_buf from rfl, hB] at hrd
    simp only [List.length_replicate] at hrd
    rw [if_neg (by norm_num : ¬ ((4096 : Nat) = 0)),
      if_pos (by norm_num : (4095 : Nat) ≠ 4096)] at hrd
    have hbig : bigReadState = closeconn { slotIn with revents := REV_IN }
        { client_init with cb := (⟨0, 4095, 0, B⟩ : ClientBuf) } := by
      show orKeep (slotIn, client_init, false)
        (handle_client { slotIn with revents := REV_IN } client_init false
          (RRes.data (List.replicate 4096 1)) (WRes.ok 0)) = _
      rw [hrd]
      rfl
    rw [hbig]
    rfl
  · have hws := wrapState_facts
    have h := wrapRound_spec wrapState (List.replicate 10 2)
      hws.1 hws.2.1 hws.2.2.1 hws.2.2.2.1 hws.2.2.2.2.1 hws.2.2.2.2.2
      (by simp)
    exact ⟨h.2.1, h.1, h.2.2.2.1, h.2.2.2.2, by rw [wrapFinal, h.2.2.2.1, h.2.2.2.2]; omega⟩

/-- C7 amended: for 0 < N ≤ 4095 = C − 1 (N = 4096 is refused by the buffer
and closes the connection, and an empty buffer parked near the end of the
array falls afoul of the non-wrapping consume), a freshly initialized
connection in READING that receives the N bytes `d` and whose subsequent
channel writes confirm positive partial counts summing to N ends with an
empty buffer and state READING, without being closed. -/
theorem C7_echo_transaction (d : List Nat) (ms : List Nat)
    (h1 : 0 < d.length) (h2 : d.length ≤ 4095) (h3 : ms ≠ [])
    (h4 : ∀ m ∈ ms, 0 < m) (h5 : ms.sum = d.length) :
    (runEcho d ms).2.1.state = CState.reading ∧
    (runEcho d ms).2.1.cb.readp = (runEcho d ms).2.1.cb.writep ∧
    (runEcho d ms).1.fdOpen = true ∧
    (runEcho d ms).2.1.ctxAlive = true := by
  have hrd := readStep_spec slotIn client_init false d 0 rfl rfl rfl rfl (by omega) h1 h2
  have hwmod : (0 + d.length) % 4096 = d.length := by omega
  rw [hwmod] at hrd
  have hre : runEcho d ms = ms.foldl stepWrite (readStep (slotIn, client_init, false) d) := rfl
  rw [hre, hrd.1]
  have haux := writeSteps_aux ms { slotIn with revents := REV_IN, events := POLLOUT_HUP }
    { client_init with state := CState.writing, cb := (client_put client_init.cb d).1 }
    false 0 d.length rfl rfl rfl rfl hrd.2.1 hrd.2.2.1 (by omega) (by omega)
    h3 h4 (by omega)
  exact ⟨haux.1, by rw [haux.2.1, haux.2.2.1], haux.2.2.2.1, haux.2.2.2.2.1⟩

/-- C7 witness: a three-byte echo completed by two partial writes. -/
theorem C7_witness : (runEcho [5, 6, 7] [2, 1]).2.1.state = CState.reading :=
  (C7_echo_transaction [5, 6, 7] [2, 1] (by norm_num) (by norm_num) (by simp)
    (by decide) (by decide)).1

/-- C8: `client_put` copies at most the free space (one less than capacity
minus the buffered bytes), so at most 4095 bytes are ever buffered; the
bytes of the logically occupied region are never overwritten; and on a full
buffer it returns 0 and leaves the state completely unchanged. -/
theorem C8_put_respects_capacity (c : ClientBuf) (input : List Nat)
    (hr : c.readp < 4096) (hw : c.writep < 4096) :
    (client_put c input).2 ≤ 4095 - usedOf c ∧
    usedOf (client_put c input).1 = usedOf c + (client_put c input).2 ∧
    usedOf (client_put c input).1 ≤ 4095 ∧
    (∀ i < usedOf c,
      (client_put c input).1.buf.getD ((c.readp + i) % 4096) 0
        = c.buf.getD ((c.readp + i) % 4096) 0) ∧
    (4095 - usedOf c = 0 → client_put c input = (c, 0)) := by
  have h := client_put_spec c input hr hw
  have hused : usedOf c ≤ 4095 := by
    rw [usedOf]
    omega
  have hamt : putAmt input c ≤ 4095 - usedOf c := by
    rw [putAmt]
    omega
  have heq : usedOf (client_put c input).1
      = ((c.writep + putAmt input c) % 4096 + 4096 - c.readp) % 4096 := by
    rw [usedOf, h.2.1, h.2.2.2.1]
  have heq2 : usedOf (client_put c input).1 = usedOf c + putAmt input c := by
    rw [heq, usedOf]
    rw [usedOf] at hamt hused
    omega
  refine ⟨by rw [h.1]; omega, by rw [heq2, h.1], by rw [heq2]; omega,
    h.2.2.2.2.2.1, ?_⟩
  intro hfree
  have hz : putAmt input c = 0 := by
    rw [putAmt]
    rw [usedOf] at hfree ⊢
    omega
  have hstate := h.2.2.2.2.2.2 hz
  have hcount : (client_put c input).2 = 0 := by
    rw [h.1, hz]
  have hpair : client_put c input = ((client_put c input).1, (client_put c input).2) := rfl
  rw [hpair, hstate, hcount]

/-- C8 witness: the statement at a fresh buffer and a three-byte input. -/
theorem C8_witness :
    (client_put client_init_buf [1, 2, 3]).2 ≤ 4095 - usedOf client_init_buf :=
  (C8_put_respects_capacity client_init_buf [1, 2, 3]
    (by norm_num [client_init_buf]) (by norm_num [client_init_buf])).1

/-- A slot whose readiness notification reports POLLERR. -/
def slotErr : Slot := ⟨true, POLLIN_HUP, REV_ERR⟩

/-- C9 counterexample: a POLLERR notification on one connection makes
`handle_client` call `errx(1)` — modelled as the fatal outcome `none` — so
the whole process terminates, taking every other connection with it. -/
theorem C9_counterexample :
    handle_client slotErr client_init false RRes.err (WRes.ok 0) = none := rfl

/-- C9 amended: for every notification that does not report POLLERR or
POLLNVAL the state-machine step returns normally (it never aborts the
process); by construction it touches only the given slot, connection and
throttle.  A POLLERR or POLLNVAL notification, however, aborts the entire
process. -/
theorem C9_no_abort_without_pollerr (sl : Slot) (c : Conn) (th : Bool)
    (rr : RRes) (wr : WRes)
    (h1 : sl.revents.perr = false) (h2 : sl.revents.pnval = false) :
    (handle_client sl c th rr wr).isSome = true := by
  have hcond1 : ¬ ((sl.revents.perr || sl.revents.pnval) = true) := by
    rw [h1, h2]
    simp
  rw [handle_client.eq_def, if_neg hcond1]
  repeat' split
  all_goals rfl

/-- C9 witness: the amended statement at a POLLIN notification. -/
theorem C9_witness :
    (handle_client slotIn client_init false RRes.err (WRes.ok 0)).isSome = true :=
  C9_no_abort_without_pollerr slotIn client_init false RRes.err (WRes.ok 0) rfl rfl

/-- C10: when `accept` fails the dispatcher sets the throttle and skips the
slot scan entirely — the slots are untouched, nothing is closed or
installed, and the throttle is left set regardless of free slots — and
closing any connection unconditionally clears the throttle again. -/
theorem C10_failed_accept_keeps_throttle (slots : List Bool) (hsOk : Bool) :
    acceptStep slots false hsOk = (slots, true, false, false) ∧
    (∀ (sl : Slot) (c : Conn), (closeconn sl c).2.2 = false) :=
  ⟨rfl, fun _ _ => rfl⟩

example : (client_put client_init_buf [7, 8]).2 = 2 := by decide
example : (client_put client_init_buf [7, 8]).1.writep = 2 := by decide
example : (client_get (client_put client_init_buf [7, 8]).1 2).1 = [7, 8] := by decide
example : (client_get (client_put client_init_buf [7, 8]).1 2).2.1.nextp = 2 := by decide
example :
    (client_consume (client_get (client_put client_init_buf [7, 8]).1 2).2.1 2).1.readp = 2 := by
  decide
